import Mathlib

/-!
Verification of the EquiHire decision-support pipeline.

This file gives a shallow embedding, in Lean 4, of the algorithmic core of
the EquiHire applicant-tracking platform:

* the fairness auditor (`backend/flask_services/fairness_service/app.py`):
  `calculate_disparate_impact`, `calculate_demographic_parity`, and the
  `/api/audit` handler `audit_fairness`;
* the similarity matcher (`backend/django_app/jobs/services.py`
  `calculate_match_score`, and
  `backend/flask_services/explainability_service/app.py`
  `calculate_cosine_similarity`);
* the explanation generator's keyword weighting
  (`explainability_service/app.py` `explain_score_simple`);
* the top-K candidate ranking of
  `backend/flask_services/matcher_service/app.py` `match_resumes`;
* the Django-side orchestration (`jobs/services.py`:
  `get_fairness_metrics`, `get_explanation`, `process_application`).

Python floats are modelled by an ordered field (rationals at concrete
inputs); `numpy.linalg.norm` is modelled by an explicit square-root
parameter `sq` so the definitions stay executable.  Python `None` is
`Option.none`; a raised-and-caught exception is an `Except.error` that the
embedding of the enclosing `try/except` maps to the handler's result.
JSON payloads are modelled by the inductive `JVal`, with Python `dict`
update (`d[k] = v`, insertion-order preserving) as `dset` and lookup as
`jget`.
-/

/-! ## JSON values (Python dict/list payloads) -/

/-- JSON values as produced and consumed by the Flask services and the
Django orchestration code. -/
inductive JVal where
  | jnull
  | jbool (b : Bool)
  | jnum (q : ℚ)
  | jstr (s : String)
  | jarr (items : List JVal)
  | jobj (fields : List (String × JVal))

open JVal

/-- Lookup of a key in a JSON object's field list (Python `d.get(k)` /
`k in d`). -/
def jget (fields : List (String × JVal)) (k : String) : Option JVal :=
  match fields with
  | [] => none
  | (k', v) :: t => if k' = k then some v else jget t k

/-- Python dict assignment `d[k] = v`: updates the value in place when the
key exists (keeping its position), appends otherwise. -/
def dset (fields : List (String × JVal)) (k : String) (v : JVal) :
    List (String × JVal) :=
  match fields with
  | [] => [(k, v)]
  | (k', v') :: t => if k' = k then (k, v) :: t else (k', v') :: dset t k v

/-- Lookup on a `JVal`: `none` when the value is not an object or lacks
the key. -/
def JVal.get1 : JVal → String → Option JVal
  | jobj fields, k => jget fields k
  | _, _ => none

/-- Python truthiness of a JSON value (`if data:`). -/
def jTruthy : JVal → Bool
  | jnull => false
  | jbool b => b
  | jnum q => decide (q ≠ 0)
  | jstr s => decide (s ≠ "")
  | jarr items => !items.isEmpty
  | jobj fields => !fields.isEmpty

/-! ## Fairness service: `calculate_disparate_impact`,
`calculate_demographic_parity`, `audit_fairness` -/

/-- Keys of a Python dict built by iterating over `l` and inserting each
element on first sight (`if attr not in groups: groups[attr] = []`):
the distinct elements of `l` in first-occurrence order. -/
def firstKeysAux {κ : Type} [DecidableEq κ] : List κ → List κ → List κ
  | [], acc => acc.reverse
  | a :: t, acc => if a ∈ acc then firstKeysAux t acc else firstKeysAux t (a :: acc)

/-- Distinct elements in first-occurrence order (Python dict key order). -/
def firstKeys {κ : Type} [DecidableEq κ] (l : List κ) : List κ :=
  firstKeysAux l []

/-- The scores landing in group `k`: `groups[k]` after the grouping loop of
`calculate_disparate_impact` over `zip(scores, protected_attributes)`. -/
def groupScores {κ : Type} [DecidableEq κ] (pairs : List (ℚ × κ)) (k : κ) :
    List ℚ :=
  (pairs.filter (fun p => decide (p.2 = k))).map Prod.fst

/-- Selection rate of one group:
`sum(1 for s in group_scores if s >= 0.5) / len(group_scores)`
(threshold `0.5` applied to the raw score). -/
def selRate (g : List ℚ) : ℚ :=
  ((g.filter (fun s => decide ((1 : ℚ)/2 ≤ s))).length : ℚ) / (g.length : ℚ)

/-- The list `rates = list(selection_rates.values())` of
`calculate_disparate_impact`: one selection rate per distinct attribute,
in first-occurrence (dict insertion) order. -/
def ratesOf {κ : Type} [DecidableEq κ] (scores : List ℚ) (attrs : List κ) :
    List ℚ :=
  let pairs := scores.zip attrs
  (firstKeys (pairs.map Prod.snd)).map (fun k => selRate (groupScores pairs k))

/-- Python `min` over a nonempty list (`0` on `[]`, unreachable in the
source because the callers guard emptiness). -/
def pyMin (l : List ℚ) : ℚ :=
  match l with
  | [] => 0
  | a :: t => t.foldl min a

/-- Python `max` over a nonempty list (`0` on `[]`, unreachable in the
source). -/
def pyMax (l : List ℚ) : ℚ :=
  match l with
  | [] => 0
  | a :: t => t.foldl max a

/-- `calculate_disparate_impact(scores, protected_attributes)` of
`fairness_service/app.py`: `None` on an empty input, fewer than two groups,
or an all-zero maximum selection rate; otherwise
`min(rates) / max(rates)`. -/
def calculate_disparate_impact {κ : Type} [DecidableEq κ]
    (scores : List ℚ) (attrs : List κ) : Option ℚ :=
  if scores.length = 0 ∨ attrs.length = 0 then none
  else
    let rates := ratesOf scores attrs
    if rates.length < 2 then none
    else if pyMax rates = 0 then none
    else some (pyMin rates / pyMax rates)

/-- `calculate_demographic_parity(scores, protected_attributes)`:
per-group mean of the binary predictions `1 if s >= 0.5 else 0`, i.e. the
selection rates, returning `max - min`; `None` on an empty input or fewer
than two groups.  (The pandas `groupby` pairs predictions with attributes
positionally; the source only calls it with equal-length lists.) -/
def calculate_demographic_parity {κ : Type} [DecidableEq κ]
    (scores : List ℚ) (attrs : List κ) : Option ℚ :=
  if scores.length = 0 ∨ attrs.length = 0 then none
  else
    let rates := ratesOf scores attrs
    if rates.length < 2 then none
    else some (pyMax rates - pyMin rates)

/-- The `is_fair` computation of the `/api/audit` handler: starts `True`,
cleared when the disparate impact ratio leaves `[0.8, 1.25]` or the
absolute parity difference exceeds `0.1`; a missing metric leaves the flag
untouched. -/
def is_fair_flag (di dp : Option ℚ) : Bool :=
  let b1 : Bool :=
    match di with
    | some d => !(decide (d < 4/5) || decide (d > 5/4))
    | none => true
  let b2 : Bool :=
    match dp with
    | some p => !(decide (|p| > 1/10))
    | none => true
  b1 && b2

/-- The proxy-group bucketing of the audit handler:
`exp_years = app['experience_years'] or 0`, then `junior` below 2, `mid`
below 5, `senior` otherwise. -/
def expBucket (e : Option ℤ) : String :=
  let v : ℤ := match e with | none => 0 | some x => x
  if v < 2 then "junior" else if v < 5 then "mid" else "senior"

/-- The `/api/audit` handler `audit_fairness`, as a function of the
request's `score` field and of the job's pool of scored applications
(the DB rows with `score IS NOT NULL`, each row carrying its score and
`experience_years`).  Returns the HTTP status and JSON body. -/
def audit_fairness (reqScore : Option ℚ) (pool : List (ℚ × Option ℤ)) :
    ℕ × JVal :=
  match reqScore with
  | none => (400, jobj [("error", jstr "Score is required")])
  | some _ =>
    if pool.length < 2 then
      (200, jobj [("success", jbool true),
        ("metrics", jobj
          [("message", jstr "Insufficient data for fairness audit"),
           ("total_applications", jnum (pool.length : ℚ))])])
    else
      let scores := pool.map Prod.fst
      let attrs := pool.map (fun p => expBucket p.2)
      let di := calculate_disparate_impact scores attrs
      let dp := calculate_demographic_parity scores attrs
      let optNum : Option ℚ → JVal := fun o =>
        match o with | none => jnull | some q => jnum q
      (200, jobj [("success", jbool true),
        ("metrics", jobj
          [("disparate_impact_ratio", optNum di),
           ("demographic_parity_difference", optNum dp),
           ("is_fair", jbool (is_fair_flag di dp)),
           ("total_applications", jnum (pool.length : ℚ)),
           ("protected_attribute", jstr "experience_level"),
           ("threshold", jnum (4/5))])])

/-! ## Similarity matcher: `calculate_match_score` (Django) and
`calculate_cosine_similarity` (explainability service)

Vector entries live in a linear ordered field `α`; `numpy.linalg.norm` is
`sq (sumSq v)` for an explicit square-root parameter `sq : α → α`, so the
definitions remain executable and concrete instances can pick an exact
square root for the inputs at hand. -/

/-- Sum of squares of a vector's entries (the radicand of
`numpy.linalg.norm`). -/
def sumSq {α : Type} [LinearOrderedField α] (v : List α) : α :=
  (v.map (fun x => x * x)).sum

/-- Pointwise dot product of two equal-length vectors (the value of
`np.dot` when the shapes align). -/
def dotL {α : Type} [LinearOrderedField α] (a b : List α) : α :=
  (List.zipWith (fun x y => x * y) a b).sum

/-- `numpy.linalg.norm(v)` with `sq` standing for the square root. -/
def pyNorm {α : Type} [LinearOrderedField α] (sq : α → α) (v : List α) : α :=
  sq (sumSq v)

/-- The manual cosine-similarity expression of `calculate_match_score`:
`dot / (norm_job * norm_resume) if (norm_job * norm_resume) > 0 else 0.0`. -/
def cosineManual {α : Type} [LinearOrderedField α] (sq : α → α)
    (a b : List α) : α :=
  if 0 < pyNorm sq a * pyNorm sq b then
    dotL a b / (pyNorm sq a * pyNorm sq b)
  else 0

/-- `calculate_cosine_similarity(vec1, vec2)` of
`explainability_service/app.py`: `0.0` when either norm is zero, otherwise
`dot_product / (norm1 * norm2)`. -/
def calculate_cosine_similarity {α : Type} [LinearOrderedField α]
    (sq : α → α) (a b : List α) : α :=
  if pyNorm sq a = 0 ∨ pyNorm sq b = 0 then 0
  else dotL a b / (pyNorm sq a * pyNorm sq b)

/-- `np.dot` on two 1-D arrays: raises `ValueError` (modelled as
`Except.error`) when the shapes do not align. -/
def npDot {α : Type} [LinearOrderedField α] (a b : List α) :
    Except String α :=
  if a.length = b.length then Except.ok (dotL a b)
  else Except.error "shapes not aligned"

/-- The body of `calculate_match_score` after the embedding checks: dot
product (which may raise), norms, guarded division, and the `* 100`
scaling.  Any `Except.error` models an exception inside the `try`. -/
def matchScoreBody {α : Type} [LinearOrderedField α] (sq : α → α)
    (j r : List α) : Except String α :=
  match npDot j r with
  | Except.error e => Except.error e
  | Except.ok d =>
    Except.ok ((if 0 < pyNorm sq j * pyNorm sq r then
        d / (pyNorm sq j * pyNorm sq r)
      else 0) * 100)

/-- `calculate_match_score(job, resume)` of `jobs/services.py` (manual
branch): `None` when either embedding is absent or empty; otherwise the
guarded cosine similarity scaled by 100; the surrounding
`try/except` turns every exception (e.g. the `ValueError` of a shape
mismatch) into `None`. -/
def calculate_match_score {α : Type} [LinearOrderedField α] (sq : α → α)
    (job resume : Option (List α)) : Option α :=
  match job, resume with
  | some j, some r =>
    if j.length = 0 ∨ r.length = 0 then none
    else
      match matchScoreBody sq j r with
      | Except.ok v => some v
      | Except.error _ => none
  | _, _ => none

/-! ## Top-K ranking: `match_resumes` of `matcher_service/app.py` -/

/-- One entry of the `matches` list assembled by `match_resumes` (the
fields relevant to ranking). -/
structure MatchEntry where
  candidate_id : ℕ
  score : ℚ
deriving DecidableEq, Repr

/-- Insertion step of a stable descending sort by score: the new element
goes in front of the first entry whose score is not greater, so existing
ties keep their relative order. -/
def insertDescByScore (m : MatchEntry) : List MatchEntry → List MatchEntry
  | [] => [m]
  | a :: t => if m.score < a.score then a :: insertDescByScore m t
              else m :: a :: t

/-- `matches.sort(key=lambda x: x['score'], reverse=True)`: Python's sort
is stable, so this is the stable descending sort by score. -/
def pySortDesc (l : List MatchEntry) : List MatchEntry :=
  l.foldr insertDescByScore []

/-- `match_resumes` ranking contract: sort all matches by score
descending (stable) and keep the first `top_k`. -/
def topMatches (l : List MatchEntry) (k : ℕ) : List MatchEntry :=
  (pySortDesc l).take k

/-! ## Explanation generator: keyword weighting of `explain_score_simple` -/

/-- Whether `needle` occurs as a contiguous subsequence of `hay`
(Python's `needle in hay` on strings), on character lists. -/
def beginsWith : List Char → List Char → Bool
  | [], _ => true
  | _ :: _, [] => false
  | a :: t, b :: u => decide (a = b) && beginsWith t u

/-- Substring occurrence check used for Python's `in` on strings. -/
def hasSub (needle : List Char) : List Char → Bool
  | [] => needle.isEmpty
  | c :: t => beginsWith needle (c :: t) || hasSub needle t

/-- Python `text.lower()` (ASCII case folding, which covers the curated
vocabulary). -/
def pyLower (s : String) : String :=
  String.mk (s.data.map Char.toLower)

/-- Python `needle in hay` on strings. -/
def pyIn (needle hay : String) : Bool :=
  hasSub needle.data hay.data

/-- The curated vocabulary `important_keywords` of
`explain_score_simple`. -/
def importantKeywords : List String :=
  ["python", "java", "javascript", "react", "sql", "docker",
   "kubernetes", "aws", "machine learning", "experience",
   "education", "certification", "project", "skill"]

/-- The `feature_importance` dict of `explain_score_simple`: each
vocabulary keyword found in the lowercased job text gets `0.1` when also
in the lowercased resume text and `-0.05` otherwise; keywords absent from
the job text get no entry. -/
def feature_importance (jobText resumeText : String) : List (String × ℚ) :=
  importantKeywords.filterMap (fun kw =>
    if pyIn kw (pyLower jobText) && pyIn kw (pyLower resumeText) then
      some (kw, 1/10)
    else if pyIn kw (pyLower jobText) then
      some (kw, -(1/20))
    else none)

/-! ## Django orchestration: `get_fairness_metrics`, `get_explanation`,
`process_application` of `jobs/services.py`

Each external HTTP call is summarised by a `SvcOutcome`: it timed out,
failed at the request layer (connection error, or malformed JSON — both
`RequestException`s), or returned a status code with a parsed body. -/

/-- Outcome of one `requests.post` call as seen by the caller. -/
inductive SvcOutcome where
  | timeout
  | reqError (msg : String)
  | ok (status : ℕ) (body : JVal)

/-- `float(application.score) if application.score else 0.0`: Python
truthiness sends both `None` and `0.0` to `0.0` (the latter is already
`0.0`), so this is `getD 0`. -/
def pyScoreOr0 (s : Option ℚ) : ℚ := s.getD 0

/-- The JSON payload `get_fairness_metrics` posts to the audit service;
an absent own score is replaced by `0.0`, not skipped. -/
def fairness_audit_request (appId jobId : ℕ) (score : Option ℚ)
    (total : ℕ) : JVal :=
  jobj [("application_id", jnum (appId : ℚ)),
        ("job_id", jnum (jobId : ℚ)),
        ("score", jnum (pyScoreOr0 score)),
        ("total_applications", jnum (total : ℚ))]

/-- The `FALLBACK_METRICS` dict of `get_fairness_metrics`, with the
`message` field as adjusted by the branch that returns it. -/
def FALLBACK_METRICS (msg : String) : JVal :=
  jobj [("bias_detected", jbool false),
        ("message", jstr msg),
        ("metrics", jobj
          [("statistical_parity_difference", jnum 0),
           ("disparate_impact_ratio", jnum 1),
           ("average_odds_difference", jnum 0),
           ("equal_opportunity_difference", jnum 0),
           ("analysis_quality", jstr "low"),
           ("suggested_actions", jarr
             [jstr "Fairness service is currently unavailable",
              jstr "Review applications manually for potential biases",
              jstr "Ensure diverse hiring panels are in place",
              jstr "Use structured interviews and evaluation criteria"])]),
        ("is_fallback", jbool true)]

/-- Default `message` of `FALLBACK_METRICS`. -/
def fairnessFallbackDefaultMsg : String :=
  "Using fallback fairness analysis - service unavailable"

/-- The `'No fairness metrics available'` message appended when a 200
response carries an empty `metrics` value; the response's own truthy
string `message` is appended lowercased. -/
def noMetricsMsg (fields : List (String × JVal)) : String :=
  "No fairness metrics available" ++
    match jget fields "message" with
    | some (jstr s) => if s = "" then "" else " - " ++ pyLower s
    | _ => ""

/-- Normalisation of a 200-response dict in `get_fairness_metrics`: a
`metrics` key is guaranteed, and when the `metrics` value is falsy a
`message` is added; otherwise the dict passes through unchanged. -/
def fairnessNormalize (fields : List (String × JVal)) : JVal :=
  let fields1 :=
    match jget fields "metrics" with
    | none => dset fields "metrics" (jobj [])
    | some _ => fields
  let fields2 :=
    match jget fields1 "metrics" with
    | some m =>
      if jTruthy m then fields1
      else dset fields1 "message" (jstr (noMetricsMsg fields1))
    | none => fields1
  jobj fields2

/-- `get_fairness_metrics(application)`, as a function of the service
toggle, the size of the job's application pool, and the audit call's
outcome.  Every branch returns a dict; only a 200 dict response is passed
through (after guaranteeing a `metrics` key), everything else becomes
`FALLBACK_METRICS`. -/
def get_fairness_metrics (enabled : Bool) (poolCount : ℕ)
    (svc : SvcOutcome) : JVal :=
  if !enabled then FALLBACK_METRICS fairnessFallbackDefaultMsg
  else if poolCount < 2 then
    FALLBACK_METRICS
      "Not enough applications for fairness analysis (minimum 2 required)"
  else
    match svc with
    | SvcOutcome.ok st body =>
      if st = 200 then
        match body with
        | jobj fields => fairnessNormalize fields
        | _ => FALLBACK_METRICS fairnessFallbackDefaultMsg
      else FALLBACK_METRICS fairnessFallbackDefaultMsg
    | SvcOutcome.timeout =>
      FALLBACK_METRICS "Fairness analysis timed out - using fallback metrics"
    | SvcOutcome.reqError e =>
      FALLBACK_METRICS
        ("Fairness service error: " ++ e ++ " - using fallback metrics")

/-- The fixed four-sentence `explanation` list of
`FALLBACK_EXPLANATION`. -/
def fallbackExplanationBase : List String :=
  ["This is a fallback explanation because the explainability service is currently unavailable.",
   "The match score is based on keyword matching and semantic similarity between the job requirements and resume content.",
   "Key factors considered include: skills match, experience relevance, and education alignment with job requirements.",
   "For a more detailed analysis, please try again later when the explainability service is available."]

/-- The `FALLBACK_EXPLANATION` dict of `get_explanation`, with the
messages a branch `insert(0, ...)`s in front of the rationale. -/
def FALLBACK_EXPLANATION (score : Option ℚ) (prepended : List String) :
    JVal :=
  jobj [("explanation",
          jarr ((prepended ++ fallbackExplanationBase).map jstr)),
        ("prediction", jnum (pyScoreOr0 score)),
        ("is_fallback", jbool true),
        ("confidence", jnum (1/2)),
        ("suggestions", jarr
          [jstr "Review the resume for relevant experience and skills",
           jstr "Consider additional qualifications that might not be explicitly listed",
           jstr "Contact the candidate for clarification if needed"])]

/-- Python `not text.strip()`: the string has no non-whitespace
character. -/
def pyBlank (s : String) : Bool :=
  s.data.all (fun c => c.isWhitespace)

/-- Normalisation of a 200-response dict in `get_explanation`: an
`explanation` list, a `prediction` and an `is_fallback` key are
guaranteed. -/
def explanationNormalize (score : Option ℚ)
    (fields : List (String × JVal)) : JVal :=
  let f1 :=
    match jget fields "explanation" with
    | none => dset fields "explanation"
        (jarr (fallbackExplanationBase.map jstr))
    | some _ => fields
  let f2 :=
    match jget f1 "prediction" with
    | none => dset f1 "prediction" (jnum (pyScoreOr0 score))
    | some _ => f1
  let f3 :=
    match jget f2 "explanation" with
    | some (jarr _) => f2
    | some (jstr s) => dset f2 "explanation" (jarr [jstr s])
    | some _ => dset f2 "explanation"
        (jarr (fallbackExplanationBase.map jstr))
    | none => f2
  let f4 :=
    match jget f3 "is_fallback" with
    | none => dset f3 "is_fallback" (jbool false)
    | some _ => f3
  jobj f4

/-- `get_explanation(application)`, as a function of the service toggle,
presence of the job/resume and their texts, the score, and the service
call's outcome.  A 200 dict response is normalised (an `explanation` list
and `prediction` and `is_fallback` keys are guaranteed); every other
outcome yields `FALLBACK_EXPLANATION`. -/
def get_explanation (enabled : Bool) (hasJob : Bool) (jobText : String)
    (hasResume : Bool) (resumeText : String) (score : Option ℚ)
    (svc : SvcOutcome) : JVal :=
  if !enabled then FALLBACK_EXPLANATION score []
  else if !hasJob then
    FALLBACK_EXPLANATION score ["No job information available for this application."]
  else if pyBlank jobText then
    FALLBACK_EXPLANATION score ["No job description available for analysis."]
  else if !hasResume then
    FALLBACK_EXPLANATION score ["No resume information available for this application."]
  else if pyBlank resumeText then
    FALLBACK_EXPLANATION score ["No resume content available for analysis."]
  else
    match svc with
    | SvcOutcome.ok st body =>
      if st = 200 then
        match body with
        | jobj fields => explanationNormalize score fields
        | _ => FALLBACK_EXPLANATION score []
      else FALLBACK_EXPLANATION score []
    | SvcOutcome.timeout =>
      FALLBACK_EXPLANATION score
        ["Explanation service timed out - showing fallback explanation."]
    | SvcOutcome.reqError e =>
      FALLBACK_EXPLANATION score ["Explanation service error - " ++ e]

/-! ## The orchestrator: `process_application` -/

/-- The three independently mutable result fields of an `Application`
row. -/
structure AppState where
  score : Option ℚ
  fairness_metrics : Option JVal
  explanation : Option JVal

/-- The environment of one orchestration run: the results the three stage
functions produce (each of them is total — they catch their own errors),
and whether each of the three field-scoped `application.save` calls
succeeds (`false` models a raised persistence error). -/
structure OrchEnv where
  matchResult : Option ℚ
  fairnessResult : JVal
  explanationResult : JVal
  saveScoreOk : Bool
  saveFairnessOk : Bool
  saveExplanationOk : Bool

/-- What one `process_application` run did: whether an exception escaped
to the caller, the in-memory object returned, the persisted row, and
which stages were attempted. -/
structure OrchOutcome where
  raised : Bool
  returned : AppState
  db : AppState
  fairnessAttempted : Bool
  explanationAttempted : Bool

/-- Stages 2 and 3 of `process_application`: each wrapped in its own
`try/except`, so a failing save only skips that stage's persistence. -/
def orchStages23 (env : OrchEnv) (app1 db1 : AppState) : OrchOutcome :=
  let app2 := if jTruthy env.fairnessResult then
      { app1 with fairness_metrics := some env.fairnessResult }
    else app1
  let db2 := if jTruthy env.fairnessResult && env.saveFairnessOk then
      { db1 with fairness_metrics := some env.fairnessResult }
    else db1
  let app3 := if jTruthy env.explanationResult then
      { app2 with explanation := some env.explanationResult }
    else app2
  let db3 := if jTruthy env.explanationResult && env.saveExplanationOk then
      { db2 with explanation := some env.explanationResult }
    else db2
  { raised := false, returned := app3, db := db3,
    fairnessAttempted := true, explanationAttempted := true }

/-- `process_application(application)`: score, fairness, explanation in
order.  The score stage's `save` is not protected by an inner handler, so
its failure jumps to the outer `except`, which logs and returns the
in-memory object — nothing is re-raised to the caller on any path. -/
def process_application (env : OrchEnv) (app0 db0 : AppState) :
    OrchOutcome :=
  match env.matchResult with
  | some s =>
    let app1 : AppState := { app0 with score := some s }
    if env.saveScoreOk then
      orchStages23 env app1 { db0 with score := some s }
    else
      { raised := false, returned := app1, db := db0,
        fairnessAttempted := false, explanationAttempted := false }
  | none => orchStages23 env app0 db0

/-! ## Helper lemmas -/

theorem jget_dset_self (fields : List (String × JVal)) (k : String)
    (v : JVal) : jget (dset fields k v) k = some v := by
  induction fields with
  | nil => simp [dset, jget]
  | cons p t ih =>
    by_cases h : p.1 = k
    · simp [dset, jget, h]
    · simp [dset, jget, h, ih]

theorem jget_dset_ne (fields : List (String × JVal)) (k k' : String)
    (v : JVal) (hne : k ≠ k') : jget (dset fields k v) k' = jget fields k' := by
  induction fields with
  | nil => simp [dset, jget, hne]
  | cons p t ih =>
    by_cases h : p.1 = k
    · simp [dset, jget, h, hne]
    · simp [dset, jget, h, ih]

theorem foldl_min_le (l : List ℚ) (a : ℚ) : l.foldl min a ≤ a := by
  induction l generalizing a with
  | nil => simp
  | cons b t ih =>
    calc (b :: t).foldl min a = t.foldl min (min a b) := rfl
    _ ≤ min a b := ih _
    _ ≤ a := min_le_left _ _

theorem le_foldl_max (l : List ℚ) (a : ℚ) : a ≤ l.foldl max a := by
  induction l generalizing a with
  | nil => simp
  | cons b t ih =>
    calc a ≤ max a b := le_max_left _ _
    _ ≤ t.foldl max (max a b) := ih _
    _ = (b :: t).foldl max a := rfl

theorem foldl_min_nonneg (l : List ℚ) (a : ℚ) (ha : 0 ≤ a)
    (hl : ∀ x ∈ l, 0 ≤ x) : 0 ≤ l.foldl min a := by
  induction l generalizing a with
  | nil => simpa
  | cons b t ih =>
    have hb : 0 ≤ b := hl b (List.mem_cons_self _ _)
    exact ih (min a b) (le_min ha hb) (fun x hx => hl x (List.mem_cons_of_mem _ hx))

theorem pyMin_le_pyMax (l : List ℚ) (hl : l ≠ []) : pyMin l ≤ pyMax l := by
  match l with
  | a :: t =>
    calc pyMin (a :: t) = t.foldl min a := rfl
    _ ≤ a := foldl_min_le t a
    _ ≤ t.foldl max a := le_foldl_max t a
    _ = pyMax (a :: t) := rfl

theorem pyMin_nonneg (l : List ℚ) (hl : ∀ x ∈ l, 0 ≤ x) : 0 ≤ pyMin l := by
  match l with
  | [] => simp [pyMin]
  | a :: t =>
    exact foldl_min_nonneg t a (hl a (List.mem_cons_self _ _))
      (fun x hx => hl x (List.mem_cons_of_mem _ hx))

theorem selRate_nonneg (g : List ℚ) : 0 ≤ selRate g :=
  div_nonneg (Nat.cast_nonneg _) (Nat.cast_nonneg _)

theorem ratesOf_nonneg {κ : Type} [DecidableEq κ] (scores : List ℚ)
    (attrs : List κ) : ∀ x ∈ ratesOf scores attrs, 0 ≤ x := by
  intro x hx
  obtain ⟨k, _, rfl⟩ := List.mem_map.mp hx
  exact selRate_nonneg _

theorem firstKeysAux_map {κ : Type} [DecidableEq κ] (π : κ → κ)
    (hπ : Function.Injective π) (l acc : List κ) :
    firstKeysAux (l.map π) (acc.map π) = (firstKeysAux l acc).map π := by
  induction l generalizing acc with
  | nil => simp [firstKeysAux]
  | cons a t ih =>
    by_cases h : a ∈ acc
    · have h' : π a ∈ acc.map π := List.mem_map_of_mem _ h
      simp [firstKeysAux, h, h', ih]
    · have h' : ¬ π a ∈ acc.map π := by
        intro hc
        obtain ⟨b, hb, hba⟩ := List.mem_map.mp hc
        exact h (hπ hba ▸ hb)
      simpa [firstKeysAux, h, h'] using ih (a :: acc)

theorem firstKeys_map {κ : Type} [DecidableEq κ] (π : κ → κ)
    (hπ : Function.Injective π) (l : List κ) :
    firstKeys (l.map π) = (firstKeys l).map π := by
  simpa using firstKeysAux_map π hπ l []

theorem groupScores_relabel {κ : Type} [DecidableEq κ] (π : κ → κ)
    (hπ : Function.Injective π) (pairs : List (ℚ × κ)) (k : κ) :
    groupScores (pairs.map (Prod.map id π)) (π k) = groupScores pairs k := by
  unfold groupScores
  rw [List.filter_map]
  rw [List.map_map]
  have hpred : ((fun p : ℚ × κ => decide (p.2 = π k)) ∘ Prod.map id π)
      = fun p : ℚ × κ => decide (p.2 = k) := by
    funext p
    simp only [Function.comp_apply, Prod.map_snd, id_eq]
    exact decide_eq_decide.mpr ⟨fun h => hπ h, fun h => h ▸ rfl⟩
  rw [hpred]
  rfl

theorem ratesOf_relabel {κ : Type} [DecidableEq κ] (π : κ → κ)
    (hπ : Function.Injective π) (scores : List ℚ) (attrs : List κ) :
    ratesOf scores (attrs.map π) = ratesOf scores attrs := by
  simp only [ratesOf]
  have hzip : scores.zip (attrs.map π) =
      (scores.zip attrs).map (Prod.map id π) := by
    rw [List.zip_map_right]
  rw [hzip, List.map_map]
  have hsnd : (Prod.snd ∘ Prod.map (id : ℚ → ℚ) π) = π ∘ Prod.snd := by
    funext p; rfl
  rw [hsnd, ← List.map_map, firstKeys_map π hπ, List.map_map]
  apply List.map_congr_left
  intro k _
  simp only [Function.comp_apply]
  rw [groupScores_relabel π hπ]

/-! ## Claim theorems -/

/-- Claim C7: whenever `calculate_disparate_impact` returns a ratio, that
ratio lies in `[0, 1]`, and the result is invariant under any injective
relabeling of the proxy-group labels. -/
theorem claim7_disparate_impact_bounds_and_symmetry {κ : Type}
    [DecidableEq κ] :
    (∀ (scores : List ℚ) (attrs : List κ) (r : ℚ),
      calculate_disparate_impact scores attrs = some r → 0 ≤ r ∧ r ≤ 1) ∧
    (∀ (scores : List ℚ) (attrs : List κ) (π : κ → κ),
      Function.Injective π →
      calculate_disparate_impact scores (attrs.map π) =
        calculate_disparate_impact scores attrs) := by
  constructor
  · intro scores attrs r h
    simp only [calculate_disparate_impact] at h
    split_ifs at h with h1 h2 h3
    have hr := Option.some.inj h
    subst hr
    set rates := ratesOf scores attrs with hrates
    have hlen : 2 ≤ rates.length := le_of_not_lt h2
    have hne : rates ≠ [] := by
      intro hnil
      rw [hnil] at hlen
      simp at hlen
    have hnn : ∀ x ∈ rates, 0 ≤ x := ratesOf_nonneg scores attrs
    have hmin0 : 0 ≤ pyMin rates := pyMin_nonneg rates hnn
    have hminmax : pyMin rates ≤ pyMax rates := pyMin_le_pyMax rates hne
    have hmax0 : 0 ≤ pyMax rates := le_trans hmin0 hminmax
    have hmaxpos : 0 < pyMax rates := lt_of_le_of_ne hmax0 (Ne.symm h3)
    exact ⟨div_nonneg hmin0 hmax0, div_le_one_of_le₀ hminmax hmax0⟩
  · intro scores attrs π hπ
    simp only [calculate_disparate_impact, List.length_map,
      ratesOf_relabel π hπ]

/-- Claim C7 witness: a concrete defined ratio (pool `[0.9, 0.1]`, labels
`[0, 1]`) hitting both the bounds and the relabeling clause. -/
theorem claim7_witness :
    calculate_disparate_impact [(9 : ℚ)/10, 1/10] [0, 1] = some 0 ∧
    (0 ≤ (0 : ℚ) ∧ (0 : ℚ) ≤ 1) ∧
    calculate_disparate_impact [(9 : ℚ)/10, 1/10] ([0, 1].map Nat.succ) =
      calculate_disparate_impact [(9 : ℚ)/10, 1/10] [0, 1] := by
  have hDI : calculate_disparate_impact [(9 : ℚ)/10, 1/10] [0, 1] = some 0 := by
    simp [calculate_disparate_impact, ratesOf, firstKeys, firstKeysAux,
      groupScores, selRate, pyMin, pyMax]
    norm_num
  refine ⟨hDI, claim7_disparate_impact_bounds_and_symmetry.1 _ _ _ hDI,
    claim7_disparate_impact_bounds_and_symmetry.2 _ _ Nat.succ
      (fun a b hab => Nat.succ.inj hab)⟩

/-- Claim C1 counterexample: on the pool with proxy groups
`[junior, junior, senior]` and scores `[90, 90, 10]`, the code's
selection threshold `score >= 0.5` (applied to the raw 0–100 score)
selects everyone, so the disparate impact ratio is `1.0` — not the
claimed `0.0` — and `is_fair` is `true`, not `false`. -/
theorem claim1_counterexample :
    calculate_disparate_impact [90, 90, 10] ["junior", "junior", "senior"]
      = some 1 ∧
    calculate_disparate_impact [90, 90, 10] ["junior", "junior", "senior"]
      ≠ some 0 ∧
    is_fair_flag
      (calculate_disparate_impact [90, 90, 10] ["junior", "junior", "senior"])
      (calculate_demographic_parity [90, 90, 10] ["junior", "junior", "senior"])
      = true := by
  have hDI : calculate_disparate_impact [90, 90, 10]
      ["junior", "junior", "senior"] = some 1 := by
    simp [calculate_disparate_impact, ratesOf, firstKeys, firstKeysAux,
      groupScores, selRate, pyMin, pyMax]
    norm_num
  have hDP : calculate_demographic_parity [90, 90, 10]
      ["junior", "junior", "senior"] = some 0 := by
    simp [calculate_demographic_parity, ratesOf, firstKeys, firstKeysAux,
      groupScores, selRate, pyMin, pyMax]
    norm_num
  refine ⟨hDI, ?_, ?_⟩
  · rw [hDI]
    simp
  · rw [hDI, hDP]
    simp [is_fair_flag]
    norm_num

/-- With fewer than two groups (or an empty input), the disparate impact
computation yields `None`. -/
theorem disparate_impact_none_of_few_groups {κ : Type} [DecidableEq κ]
    (scores : List ℚ) (attrs : List κ)
    (h : (ratesOf scores attrs).length < 2) :
    calculate_disparate_impact scores attrs = none := by
  simp only [calculate_disparate_impact]
  split_ifs <;> rfl

/-- With fewer than two groups (or an empty input), the demographic
parity computation yields `None`. -/
theorem demographic_parity_none_of_few_groups {κ : Type} [DecidableEq κ]
    (scores : List ℚ) (attrs : List κ)
    (h : (ratesOf scores attrs).length < 2) :
    calculate_demographic_parity scores attrs = none := by
  simp only [calculate_demographic_parity]
  split_ifs <;> rfl

/-- On a pool of at least 2 scored applications that fall into fewer than
2 distinct proxy groups, the audit returns a normal success report with
null ratios and `is_fair = true`. -/
theorem audit_few_groups (q : ℚ) (pool : List (ℚ × Option ℤ))
    (hlen : 2 ≤ pool.length)
    (hgroups : (ratesOf (pool.map Prod.fst)
      (pool.map (fun p => expBucket p.2))).length < 2) :
    audit_fairness (some q) pool =
      (200, JVal.jobj [("success", JVal.jbool true),
        ("metrics", JVal.jobj
          [("disparate_impact_ratio", JVal.jnull),
           ("demographic_parity_difference", JVal.jnull),
           ("is_fair", JVal.jbool true),
           ("total_applications", JVal.jnum (pool.length : ℚ)),
           ("protected_attribute", JVal.jstr "experience_level"),
           ("threshold", JVal.jnum (4/5))])]) := by
  simp only [audit_fairness]
  rw [if_neg (not_lt.mpr hlen)]
  rw [disparate_impact_none_of_few_groups _ _ hgroups,
      demographic_parity_none_of_few_groups _ _ hgroups]
  rfl

/-- Claim C3 counterexample: a pool of two scored applications falling in
a single proxy group (`experience_years` 0 and 1, both `junior`) passes
the size check, so the audit returns a normal success report whose
metrics carry `disparate_impact_ratio = null` and `is_fair = true` — not
a fallback with `isFallback = true` and message `"insufficient data"`;
neither an `is_fallback` key nor a `message` key is present. -/
theorem claim3_counterexample :
    audit_fairness (some ((9 : ℚ)/10)) [((9 : ℚ)/10, some 0), ((1 : ℚ)/10, some 1)] =
      (200, JVal.jobj [("success", JVal.jbool true),
        ("metrics", JVal.jobj
          [("disparate_impact_ratio", JVal.jnull),
           ("demographic_parity_difference", JVal.jnull),
           ("is_fair", JVal.jbool true),
           ("total_applications", JVal.jnum 2),
           ("protected_attribute", JVal.jstr "experience_level"),
           ("threshold", JVal.jnum (4/5))])]) ∧
    JVal.get1 (audit_fairness (some ((9 : ℚ)/10))
      [((9 : ℚ)/10, some 0), ((1 : ℚ)/10, some 1)]).2 "is_fallback" = none ∧
    JVal.get1 (JVal.jobj
      [("disparate_impact_ratio", JVal.jnull),
       ("demographic_parity_difference", JVal.jnull),
       ("is_fair", JVal.jbool true),
       ("total_applications", JVal.jnum 2),
       ("protected_attribute", JVal.jstr "experience_level"),
       ("threshold", JVal.jnum (4/5))]) "message" = none := by
  have hbody : audit_fairness (some ((9 : ℚ)/10))
      [((9 : ℚ)/10, some 0), ((1 : ℚ)/10, some 1)] =
      (200, JVal.jobj [("success", JVal.jbool true),
        ("metrics", JVal.jobj
          [("disparate_impact_ratio", JVal.jnull),
           ("demographic_parity_difference", JVal.jnull),
           ("is_fair", JVal.jbool true),
           ("total_applications", JVal.jnum 2),
           ("protected_attribute", JVal.jstr "experience_level"),
           ("threshold", JVal.jnum (4/5))])]) := by
    simp [audit_fairness, expBucket, calculate_disparate_impact,
      calculate_demographic_parity, ratesOf, firstKeys, firstKeysAux,
      groupScores, selRate, pyMin, pyMax, is_fair_flag]
  refine ⟨hbody, ?_, by simp [JVal.get1, jget]⟩
  rw [hbody]
  simp [JVal.get1, jget]

/-- Claim C3 (amended): with fewer than 2 applications the Django side
returns the fallback dict (`is_fallback = true`) with message
`"Not enough applications for fairness analysis (minimum 2 required)"`,
and the audit service returns a success response whose metrics carry
`"Insufficient data for fairness audit"` and no ratio; with 2 or more
applications but fewer than 2 distinct proxy groups the audit returns a
normal success report with null ratios and `is_fair = true`, not a
fallback. -/
theorem claim3_insufficient_data_behaviour :
    (∀ (q : ℚ) (pool : List (ℚ × Option ℤ)), pool.length < 2 →
      audit_fairness (some q) pool =
        (200, JVal.jobj [("success", JVal.jbool true),
          ("metrics", JVal.jobj
            [("message", JVal.jstr "Insufficient data for fairness audit"),
             ("total_applications", JVal.jnum (pool.length : ℚ))])])) ∧
    (∀ (n : ℕ) (svc : SvcOutcome), n < 2 →
      get_fairness_metrics true n svc = FALLBACK_METRICS
          "Not enough applications for fairness analysis (minimum 2 required)" ∧
      JVal.get1 (get_fairness_metrics true n svc) "is_fallback" =
        some (JVal.jbool true)) ∧
    (∀ (q : ℚ) (pool : List (ℚ × Option ℤ)), 2 ≤ pool.length →
      (ratesOf (pool.map Prod.fst) (pool.map (fun p => expBucket p.2))).length < 2 →
      audit_fairness (some q) pool =
        (200, JVal.jobj [("success", JVal.jbool true),
          ("metrics", JVal.jobj
            [("disparate_impact_ratio", JVal.jnull),
             ("demographic_parity_difference", JVal.jnull),
             ("is_fair", JVal.jbool true),
             ("total_applications", JVal.jnum (pool.length : ℚ)),
             ("protected_attribute", JVal.jstr "experience_level"),
             ("threshold", JVal.jnum (4/5))])])) := by
  refine ⟨?_, ?_, ?_⟩
  · intro q pool h
    simp only [audit_fairness]
    rw [if_pos h]
  · intro n svc h
    have hfb : get_fairness_metrics true n svc = FALLBACK_METRICS
        "Not enough applications for fairness analysis (minimum 2 required)" := by
      simp only [get_fairness_metrics, Bool.not_true]
      rw [if_neg (by simp), if_pos h]
    exact ⟨hfb, by rw [hfb]; rfl⟩
  · exact fun q pool hlen hgroups => audit_few_groups q pool hlen hgroups

/-- Claim C3 witness: the Django-side fallback at a one-application pool. -/
theorem claim3_witness :
    get_fairness_metrics true 1 SvcOutcome.timeout = FALLBACK_METRICS
        "Not enough applications for fairness analysis (minimum 2 required)" ∧
    JVal.get1 (get_fairness_metrics true 1 SvcOutcome.timeout) "is_fallback" =
      some (JVal.jbool true) :=
  claim3_insufficient_data_behaviour.2.1 1 SvcOutcome.timeout (by decide)

/-- The final normalisation step of `get_explanation` guarantees the
`is_fallback` key. -/
theorem ensure_flag (f3 : List (String × JVal)) :
    jget (match jget f3 "is_fallback" with
      | none => dset f3 "is_fallback" (JVal.jbool false)
      | some _ => f3) "is_fallback" ≠ none := by
  cases h : jget f3 "is_fallback" with
  | none => simp [h, jget_dset_self]
  | some v => simp [h]

/-- `explanationNormalize` always delivers an `is_fallback` key. -/
theorem explanationNormalize_has_flag (sc : Option ℚ)
    (fields : List (String × JVal)) :
    JVal.get1 (explanationNormalize sc fields) "is_fallback" ≠ none :=
  ensure_flag _

/-- `FALLBACK_EXPLANATION` always carries `is_fallback = true`. -/
theorem fallback_explanation_flag (sc : Option ℚ) (msgs : List String) :
    JVal.get1 (FALLBACK_EXPLANATION sc msgs) "is_fallback" =
      some (JVal.jbool true) := by
  simp [FALLBACK_EXPLANATION, JVal.get1, jget]

/-- Every result of `get_explanation` carries an `is_fallback` key. -/
theorem get_explanation_has_flag (en hj : Bool) (jt : String) (hr : Bool)
    (rt : String) (sc : Option ℚ) (svc : SvcOutcome) :
    JVal.get1 (get_explanation en hj jt hr rt sc svc) "is_fallback" ≠ none := by
  unfold get_explanation
  split_ifs
  · rw [fallback_explanation_flag]; simp
  · rw [fallback_explanation_flag]; simp
  · rw [fallback_explanation_flag]; simp
  · rw [fallback_explanation_flag]; simp
  · rw [fallback_explanation_flag]; simp
  · cases svc with
    | timeout => rw [fallback_explanation_flag]; simp
    | reqError e => rw [fallback_explanation_flag]; simp
    | ok st body =>
      dsimp only
      by_cases hst : st = 200
      · subst hst
        rw [if_pos rfl]
        cases body with
        | jobj fields => exact explanationNormalize_has_flag sc fields
        | jnull => simp [FALLBACK_EXPLANATION, JVal.get1, jget]
        | jbool b => simp [FALLBACK_EXPLANATION, JVal.get1, jget]
        | jnum q => simp [FALLBACK_EXPLANATION, JVal.get1, jget]
        | jstr s => simp [FALLBACK_EXPLANATION, JVal.get1, jget]
        | jarr items => simp [FALLBACK_EXPLANATION, JVal.get1, jget]
      · rw [if_neg hst, fallback_explanation_flag]
        simp

/-- Claim C5 counterexample: a successful fairness-service response is
passed through `get_fairness_metrics` unchanged, and the service's
success payload carries no `is_fallback` key at all — the caller receives
a `FairnessReport` without the flag. -/
theorem claim5_counterexample :
    get_fairness_metrics true 5 (SvcOutcome.ok 200
      (JVal.jobj [("success", JVal.jbool true),
        ("metrics", JVal.jobj [("disparate_impact_ratio", JVal.jnum 1),
          ("is_fair", JVal.jbool true)])])) =
      JVal.jobj [("success", JVal.jbool true),
        ("metrics", JVal.jobj [("disparate_impact_ratio", JVal.jnum 1),
          ("is_fair", JVal.jbool true)])] ∧
    JVal.get1 (get_fairness_metrics true 5 (SvcOutcome.ok 200
      (JVal.jobj [("success", JVal.jbool true),
        ("metrics", JVal.jobj [("disparate_impact_ratio", JVal.jnum 1),
          ("is_fair", JVal.jbool true)])]))) "is_fallback" = none := by
  constructor <;> rfl

/-- Claim C5 (amended): every `get_explanation` result carries an
`is_fallback` key (inserted as `false` on successful responses that omit
it), and every fallback path of `get_fairness_metrics` returns
`FALLBACK_METRICS` with `is_fallback = true`; but a successful fairness
response passes through unchanged and may omit the flag. -/
theorem claim5_wellformed_reports :
    (∀ (en hj : Bool) (jt : String) (hr : Bool) (rt : String)
        (sc : Option ℚ) (svc : SvcOutcome),
      JVal.get1 (get_explanation en hj jt hr rt sc svc) "is_fallback" ≠ none) ∧
    (∀ m, JVal.get1 (FALLBACK_METRICS m) "is_fallback" =
      some (JVal.jbool true)) ∧
    (∀ n svc, get_fairness_metrics false n svc =
      FALLBACK_METRICS fairnessFallbackDefaultMsg) ∧
    (∀ n, 2 ≤ n → get_fairness_metrics true n SvcOutcome.timeout =
      FALLBACK_METRICS "Fairness analysis timed out - using fallback metrics") ∧
    (∀ n e, 2 ≤ n → get_fairness_metrics true n (SvcOutcome.reqError e) =
      FALLBACK_METRICS
        ("Fairness service error: " ++ e ++ " - using fallback metrics")) ∧
    (∀ n st body, 2 ≤ n → st ≠ 200 →
      get_fairness_metrics true n (SvcOutcome.ok st body) =
        FALLBACK_METRICS fairnessFallbackDefaultMsg) := by
  refine ⟨get_explanation_has_flag, fun m => rfl, fun n svc => rfl, ?_, ?_, ?_⟩
  · intro n h
    simp only [get_fairness_metrics, Bool.not_true]
    rw [if_neg (by simp), if_neg (not_lt.mpr h)]
  · intro n e h
    simp only [get_fairness_metrics, Bool.not_true]
    rw [if_neg (by simp), if_neg (not_lt.mpr h)]
  · intro n st body h hst
    simp only [get_fairness_metrics, Bool.not_true]
    rw [if_neg (by simp), if_neg (not_lt.mpr h)]
    simp [hst]

/-- Claim C5 witness: the explanation flag on a concrete success
response that omits `is_fallback`, and a concrete fairness timeout. -/
theorem claim5_witness :
    JVal.get1 (get_explanation true true "job text" true "resume text"
      (some 50) (SvcOutcome.ok 200 (JVal.jobj [("explanation",
        JVal.jarr [JVal.jstr "ok"]), ("prediction", JVal.jnum 50)])))
      "is_fallback" ≠ none ∧
    get_fairness_metrics true 2 SvcOutcome.timeout = FALLBACK_METRICS
      "Fairness analysis timed out - using fallback metrics" :=
  ⟨claim5_wellformed_reports.1 true true "job text" true "resume text"
      (some 50) _,
   claim5_wellformed_reports.2.2.2.1 2 (le_refl 2)⟩

/-- Claim C2 counterexample: with a computed score and a failing score
write (`saveScoreOk = false`, modelling a raised persistence error), the
orchestrator still does not raise — the outer `except` catches the
persistence failure and returns the in-memory object, so "persistence
failure is the sole error that bubbles up" is false (nothing bubbles
up). -/
theorem claim2_counterexample :
    (process_application
      { matchResult := some 50,
        fairnessResult := JVal.jobj [("is_fallback", JVal.jbool true)],
        explanationResult := JVal.jobj [("is_fallback", JVal.jbool true)],
        saveScoreOk := false, saveFairnessOk := true,
        saveExplanationOk := true }
      { score := none, fairness_metrics := none, explanation := none }
      { score := none, fairness_metrics := none, explanation := none }).raised
      = false ∧
    ({ matchResult := some 50,
       fairnessResult := JVal.jobj [("is_fallback", JVal.jbool true)],
       explanationResult := JVal.jobj [("is_fallback", JVal.jbool true)],
       saveScoreOk := false, saveFairnessOk := true,
       saveExplanationOk := true } : OrchEnv).saveScoreOk = false :=
  ⟨rfl, rfl⟩

/-- Claim C2 (amended): stage computations are total and their failures
become fallbacks, but the orchestrator never raises to its caller at all:
a failing score write is caught by the outer handler (skipping the
remaining stages for that run and leaving the store untouched), and
failing fairness/explanation writes are caught by their stage-local
handlers, after which the run continues. -/
theorem claim2_orchestrator_never_raises :
    (∀ env app0 db0,
      (process_application env app0 db0).raised = false) ∧
    (∀ env app0 db0, env.matchResult = none ∨ env.saveScoreOk = true →
      (process_application env app0 db0).fairnessAttempted = true ∧
      (process_application env app0 db0).explanationAttempted = true) ∧
    (∀ env app0 db0 s, env.matchResult = some s → env.saveScoreOk = false →
      (process_application env app0 db0).fairnessAttempted = false ∧
      (process_application env app0 db0).explanationAttempted = false ∧
      (process_application env app0 db0).returned.score = some s ∧
      (process_application env app0 db0).db = db0) := by
  refine ⟨?_, ?_, ?_⟩
  · intro env app0 db0
    cases hm : env.matchResult with
    | none => simp [process_application, hm, orchStages23]
    | some s =>
      by_cases hs : env.saveScoreOk <;>
        simp [process_application, hm, hs, orchStages23]
  · intro env app0 db0 h
    rcases h with hnone | hok
    · simp [process_application, hnone, orchStages23]
    · cases hm : env.matchResult with
      | none => simp [process_application, hm, orchStages23]
      | some s => simp [process_application, hm, hok, orchStages23]
  · intro env app0 db0 s hm hs
    simp [process_application, hm, hs]

/-- Claim C2 witness: the orchestrator run with a failing score write at
a concrete environment. -/
theorem claim2_witness :
    (process_application
      { matchResult := some 60,
        fairnessResult := JVal.jobj [("is_fallback", JVal.jbool true)],
        explanationResult := JVal.jobj [("is_fallback", JVal.jbool true)],
        saveScoreOk := false, saveFairnessOk := true,
        saveExplanationOk := true }
      { score := none, fairness_metrics := none, explanation := none }
      { score := none, fairness_metrics := none, explanation := none }).fairnessAttempted
      = false ∧
    (process_application
      { matchResult := some 60,
        fairnessResult := JVal.jobj [("is_fallback", JVal.jbool true)],
        explanationResult := JVal.jobj [("is_fallback", JVal.jbool true)],
        saveScoreOk := false, saveFairnessOk := true,
        saveExplanationOk := true }
      { score := none, fairness_metrics := none, explanation := none }
      { score := none, fairness_metrics := none, explanation := none }).raised
      = false := by
  refine ⟨(claim2_orchestrator_never_raises.2.2 _ _ _ 60 rfl rfl).1,
    claim2_orchestrator_never_raises.1 _ _ _⟩

/-- Claim C4 counterexample: with the application's own score absent
(`matchResult = none`, `score = none`) the fairness stage is still
attempted, and the request payload substitutes `0.0` for the missing
score — the stage is not skipped. -/
theorem claim4_counterexample :
    (process_application
      { matchResult := none,
        fairnessResult := JVal.jobj [("is_fallback", JVal.jbool true)],
        explanationResult := JVal.jobj [("is_fallback", JVal.jbool true)],
        saveScoreOk := true, saveFairnessOk := true,
        saveExplanationOk := true }
      { score := none, fairness_metrics := none, explanation := none }
      { score := none, fairness_metrics := none, explanation := none }).fairnessAttempted
      = true ∧
    JVal.get1 (fairness_audit_request 1 1 none 2) "score" =
      some (JVal.jnum 0) :=
  ⟨rfl, rfl⟩

/-- Claim C4 (amended): when the application's own score is absent the
fairness stage still runs — `get_fairness_metrics` is called and the
audit request carries the substitute score `0.0` instead of being
skipped. -/
theorem claim4_fairness_runs_without_score :
    (∀ env app0 db0, env.matchResult = none →
      (process_application env app0 db0).fairnessAttempted = true) ∧
    (∀ appId jobId total,
      JVal.get1 (fairness_audit_request appId jobId none total) "score" =
        some (JVal.jnum 0)) := by
  constructor
  · intro env app0 db0 hm
    simp [process_application, hm, orchStages23]
  · intro appId jobId total
    rfl

/-- Claim C4 witness: a concrete scoreless run. -/
theorem claim4_witness :
    (process_application
      { matchResult := none,
        fairnessResult := JVal.jobj [("is_fallback", JVal.jbool true)],
        explanationResult := JVal.jobj [("is_fallback", JVal.jbool true)],
        saveScoreOk := true, saveFairnessOk := true,
        saveExplanationOk := true }
      { score := none, fairness_metrics := none, explanation := none }
      { score := none, fairness_metrics := none, explanation := none }).fairnessAttempted
      = true ∧
    JVal.get1 (fairness_audit_request 7 3 none 4) "score" =
      some (JVal.jnum 0) :=
  ⟨claim4_fairness_runs_without_score.1 _ _ _ rfl,
   claim4_fairness_runs_without_score.2 7 3 4⟩

/-- Claim C6: the matcher returns `None` (MissingEmbedding) whenever an
embedding is absent or empty; otherwise it computes cosine similarity
`dot/(‖a‖·‖b‖)` with the value defined as exactly `0.0` when either norm
is zero, and the division is only performed when the norm product is
strictly positive.  (`hnn` captures that `numpy.linalg.norm` is
nonnegative.) -/
theorem claim6_matcher_missing_and_zero_norm {α : Type}
    [LinearOrderedField α] (sq : α → α) (hnn : ∀ x, 0 ≤ sq x) :
    (∀ r, calculate_match_score sq none r = none) ∧
    (∀ j, calculate_match_score sq j none = none) ∧
    (∀ j r : List α, j.length = 0 ∨ r.length = 0 →
      calculate_match_score sq (some j) (some r) = none) ∧
    (∀ a b : List α, pyNorm sq a = 0 ∨ pyNorm sq b = 0 →
      cosineManual sq a b = 0 ∧ calculate_cosine_similarity sq a b = 0) ∧
    (∀ a b : List α, pyNorm sq a ≠ 0 → pyNorm sq b ≠ 0 →
      0 < pyNorm sq a * pyNorm sq b ∧
      cosineManual sq a b = dotL a b / (pyNorm sq a * pyNorm sq b) ∧
      calculate_cosine_similarity sq a b =
        dotL a b / (pyNorm sq a * pyNorm sq b)) ∧
    (∀ j r : List α, j.length ≠ 0 → r.length ≠ 0 → j.length = r.length →
      calculate_match_score sq (some j) (some r) =
        some (cosineManual sq j r * 100)) := by
  refine ⟨fun r => rfl, ?_, ?_, ?_, ?_, ?_⟩
  · intro j
    cases j <;> rfl
  · intro j r h
    simp only [calculate_match_score]
    rw [if_pos h]
  · intro a b h
    constructor
    · rcases h with ha | hb
      · rw [cosineManual, ha, zero_mul]
        simp
      · rw [cosineManual, hb, mul_zero]
        simp
    · rw [calculate_cosine_similarity, if_pos h]
  · intro a b ha hb
    have hpa : 0 < pyNorm sq a := lt_of_le_of_ne (hnn _) (Ne.symm ha)
    have hpb : 0 < pyNorm sq b := lt_of_le_of_ne (hnn _) (Ne.symm hb)
    have hprod : 0 < pyNorm sq a * pyNorm sq b := mul_pos hpa hpb
    refine ⟨hprod, ?_, ?_⟩
    · rw [cosineManual, if_pos hprod]
    · rw [calculate_cosine_similarity, if_neg (not_or.mpr ⟨ha, hb⟩)]
  · intro j r hj hr hlen
    simp only [calculate_match_score]
    rw [if_neg (not_or.mpr ⟨hj, hr⟩)]
    simp only [matchScoreBody, npDot]
    rw [if_pos hlen]
    rfl

/-- Claim C6 witness: concrete runs through the missing-embedding branch
and the computed branch (`[1,0]` vs `[0,1]`, norm 1 each). -/
theorem claim6_witness :
    calculate_match_score (fun x : ℚ => |x|) (some [1, 0]) none = none ∧
    calculate_match_score (fun x : ℚ => |x|) (some [1, 0]) (some [0, 1]) =
      some (cosineManual (fun x : ℚ => |x|) [1, 0] [0, 1] * 100) :=
  ⟨(claim6_matcher_missing_and_zero_norm (fun x : ℚ => |x|)
      (fun x => abs_nonneg x)).2.1 (some [1, 0]),
   (claim6_matcher_missing_and_zero_norm (fun x : ℚ => |x|)
      (fun x => abs_nonneg x)).2.2.2.2.2 [1, 0] [0, 1]
      (by decide) (by decide) (by decide)⟩

/-- Claim C10: `calculate_match_score` is total — it yields `None`
exactly on absent embeddings, empty embeddings, or when the inner
computation raises (which happens precisely on a shape mismatch of
`np.dot`); every raised error is converted to `None`, never propagated. -/
theorem claim10_match_score_total {α : Type} [LinearOrderedField α]
    (sq : α → α) :
    (∀ (j r : List α) (e : String), matchScoreBody sq j r = Except.error e →
      calculate_match_score sq (some j) (some r) = none) ∧
    (∀ j r : List α,
      (∃ e, matchScoreBody sq j r = Except.error e) ↔ j.length ≠ r.length) ∧
    (∀ job resume : Option (List α),
      calculate_match_score sq job resume = none ↔
        (job = none ∨ resume = none ∨
          ∃ j r, job = some j ∧ resume = some r ∧
            (j.length = 0 ∨ r.length = 0 ∨ j.length ≠ r.length))) := by
  have hbody : ∀ j r : List α,
      (∃ e, matchScoreBody sq j r = Except.error e) ↔ j.length ≠ r.length := by
    intro j r
    constructor
    · rintro ⟨e, he⟩ heq
      simp only [matchScoreBody, npDot] at he
      rw [if_pos heq] at he
      exact Except.noConfusion he
    · intro hne
      refine ⟨"shapes not aligned", ?_⟩
      simp only [matchScoreBody, npDot]
      rw [if_neg hne]
  have herr : ∀ (j r : List α) (e : String),
      matchScoreBody sq j r = Except.error e →
      calculate_match_score sq (some j) (some r) = none := by
    intro j r e h
    by_cases hlen0 : j.length = 0 ∨ r.length = 0
    · simp only [calculate_match_score]
      rw [if_pos hlen0]
    · simp only [calculate_match_score]
      rw [if_neg hlen0, h]
  refine ⟨herr, hbody, ?_⟩
  intro job resume
  cases job with
  | none => simp [calculate_match_score]
  | some j =>
    cases resume with
    | none => simp [calculate_match_score]
    | some r =>
      constructor
      · intro h
        refine Or.inr (Or.inr ⟨j, r, rfl, rfl, ?_⟩)
        by_cases hlen0 : j.length = 0 ∨ r.length = 0
        · rcases hlen0 with h0 | h0
          · exact Or.inl h0
          · exact Or.inr (Or.inl h0)
        · simp only [calculate_match_score] at h
          rw [if_neg hlen0] at h
          cases hb : matchScoreBody sq j r with
          | error e => exact Or.inr (Or.inr ((hbody j r).mp ⟨e, hb⟩))
          | ok v =>
            rw [hb] at h
            exact Option.noConfusion h
      · rintro (h | h | ⟨j', r', hj', hr', hcase⟩)
        · exact Option.noConfusion h
        · exact Option.noConfusion h
        · obtain rfl : j = j' := (Option.some.inj hj')
          obtain rfl : r = r' := (Option.some.inj hr')
          rcases hcase with h0 | h0 | hne
          · simp only [calculate_match_score]
            rw [if_pos (Or.inl h0)]
          · simp only [calculate_match_score]
            rw [if_pos (Or.inr h0)]
          · obtain ⟨e, he⟩ := (hbody j r).mpr hne
            exact herr j r e he

/-- Claim C10 witness: a concrete shape mismatch is converted to
`None`. -/
theorem claim10_witness :
    calculate_match_score (fun x : ℚ => x) (some [1]) (some [1, 2]) = none :=
  ((claim10_match_score_total (fun x : ℚ => x)).2.2 (some [1])
      (some [1, 2])).mpr
    (Or.inr (Or.inr ⟨[1], [1, 2], rfl, rfl,
      Or.inr (Or.inr (by decide))⟩))

/-- Claim C1 (amended): the audit thresholds the raw score at `0.5`
(without dividing by 100), so on the pool with groups
`[junior, junior, senior]` and scores `[90, 90, 10]` both group selection
rates are `1.0`, the disparate impact ratio is `1.0`, the demographic
parity difference is `0.0`, and `is_fair` is `true`; the full audit
handler returns exactly that report. -/
theorem claim1_raw_threshold_pool :
    selRate (groupScores (([90, 90, 10] : List ℚ).zip
      ["junior", "junior", "senior"]) "junior") = 1 ∧
    selRate (groupScores (([90, 90, 10] : List ℚ).zip
      ["junior", "junior", "senior"]) "senior") = 1 ∧
    audit_fairness (some 90) [(90, some 0), (90, some 0), (10, some 5)] =
      (200, JVal.jobj [("success", JVal.jbool true),
        ("metrics", JVal.jobj
          [("disparate_impact_ratio", JVal.jnum 1),
           ("demographic_parity_difference", JVal.jnum 0),
           ("is_fair", JVal.jbool true),
           ("total_applications", JVal.jnum 3),
           ("protected_attribute", JVal.jstr "experience_level"),
           ("threshold", JVal.jnum (4/5))])]) := by
  refine ⟨?_, ?_, ?_⟩
  · simp [selRate, groupScores]
    norm_num
  · simp [selRate, groupScores]
    norm_num
  · simp [audit_fairness, expBucket, calculate_disparate_impact,
      calculate_demographic_parity, ratesOf, firstKeys, firstKeysAux,
      groupScores, selRate, pyMin, pyMax, is_fair_flag]
    norm_num

/-- Membership in an insertion step. -/
theorem mem_insertDesc (m x : MatchEntry) (l : List MatchEntry) :
    x ∈ insertDescByScore m l ↔ x = m ∨ x ∈ l := by
  induction l with
  | nil => simp [insertDescByScore]
  | cons a t ih =>
    by_cases h : m.score < a.score
    · simp only [insertDescByScore, if_pos h, List.mem_cons, ih]
      tauto
    · simp only [insertDescByScore, if_neg h, List.mem_cons]

/-- Insertion preserves the descending-by-score pairwise order. -/
theorem pairwise_insertDesc (m : MatchEntry) (l : List MatchEntry)
    (h : l.Pairwise (fun a b => b.score ≤ a.score)) :
    (insertDescByScore m l).Pairwise (fun a b => b.score ≤ a.score) := by
  induction l with
  | nil => simp [insertDescByScore]
  | cons a t ih =>
    rw [List.pairwise_cons] at h
    obtain ⟨ha, ht⟩ := h
    by_cases hma : m.score < a.score
    · rw [insertDescByScore, if_pos hma, List.pairwise_cons]
      refine ⟨?_, ih ht⟩
      intro x hx
      rcases (mem_insertDesc m x t).mp hx with rfl | hx
      · exact le_of_lt hma
      · exact ha x hx
    · rw [insertDescByScore, if_neg hma, List.pairwise_cons]
      refine ⟨?_, List.pairwise_cons.mpr ⟨ha, ht⟩⟩
      intro x hx
      rcases List.mem_cons.mp hx with rfl | hx
      · exact not_lt.mp hma
      · exact le_trans (ha x hx) (not_lt.mp hma)

/-- Insertion is a permutation of consing. -/
theorem perm_insertDesc (m : MatchEntry) (l : List MatchEntry) :
    List.Perm (insertDescByScore m l) (m :: l) := by
  induction l with
  | nil => simp [insertDescByScore]
  | cons a t ih =>
    by_cases h : m.score < a.score
    · rw [insertDescByScore, if_pos h]
      exact List.Perm.trans (ih.cons a) (List.Perm.swap m a t)
    · rw [insertDescByScore, if_neg h]

/-- Stability of one insertion step, expressed through score-filtering:
the new element lands in front of the existing elements of equal score. -/
theorem filter_insertDesc (m : MatchEntry) (l : List MatchEntry) (s : ℚ) :
    (insertDescByScore m l).filter (fun x => decide (x.score = s)) =
      if m.score = s then
        m :: l.filter (fun x => decide (x.score = s))
      else l.filter (fun x => decide (x.score = s)) := by
  induction l with
  | nil =>
    by_cases hms : m.score = s <;>
      simp [insertDescByScore, List.filter, hms]
  | cons a t ih =>
    by_cases hma : m.score < a.score
    · rw [insertDescByScore, if_pos hma]
      by_cases has : a.score = s
      · by_cases hms : m.score = s
        · exfalso
          rw [hms] at hma
          rw [has] at hma
          exact lt_irrefl s hma
        · rw [List.filter_cons_of_pos (by simp [has]), ih, if_neg hms,
            List.filter_cons_of_pos (by simp [has])]
          rw [if_neg hms]
      · rw [List.filter_cons_of_neg (by simp [has]), ih,
          List.filter_cons_of_neg (by simp [has])]
    · rw [insertDescByScore, if_neg hma]
      by_cases hms : m.score = s
      · rw [List.filter_cons_of_pos (by simp [hms]), if_pos hms]
      · rw [List.filter_cons_of_neg (by simp [hms]), if_neg hms]

/-- The stable descending sort is pairwise sorted by score. -/
theorem pySortDesc_pairwise (l : List MatchEntry) :
    (pySortDesc l).Pairwise (fun a b => b.score ≤ a.score) := by
  induction l with
  | nil => simp [pySortDesc]
  | cons a t ih => exact pairwise_insertDesc a (pySortDesc t) ih

/-- The stable descending sort permutes its input. -/
theorem pySortDesc_perm (l : List MatchEntry) :
    List.Perm (pySortDesc l) l := by
  induction l with
  | nil => simp [pySortDesc]
  | cons a t ih =>
    exact List.Perm.trans (perm_insertDesc a (pySortDesc t)) (ih.cons a)

/-- The stable descending sort preserves the relative order of entries
with any fixed score (stability). -/
theorem pySortDesc_filter (l : List MatchEntry) (s : ℚ) :
    (pySortDesc l).filter (fun x => decide (x.score = s)) =
      l.filter (fun x => decide (x.score = s)) := by
  induction l with
  | nil => simp [pySortDesc]
  | cons a t ih =>
    show (insertDescByScore a (pySortDesc t)).filter _ = _
    rw [filter_insertDesc]
    by_cases has : a.score = s
    · rw [if_pos has, ih, List.filter_cons_of_pos (by simp [has])]
    · rw [if_neg has, ih, List.filter_cons_of_neg (by simp [has])]

/-- Claim C8 counterexample: two tied candidates arriving in the order
`[candidate 2, candidate 1]` stay in that order — the ranking does not
break ties by ascending candidate identifier. -/
theorem claim8_counterexample :
    (topMatches [⟨2, 1⟩, ⟨1, 1⟩] 10).map MatchEntry.candidate_id = [2, 1] ∧
    ([2, 1] : List ℕ) ≠ [1, 2] := by
  constructor
  · rfl
  · decide

/-- Claim C8 (amended): `match_resumes` sorts by score descending with a
stable sort — score ties keep the database fetch order (no candidate-id
tiebreak) — and `topMatches` takes the first `top_k` of that order. -/
theorem claim8_stable_descending_ranking :
    (∀ l : List MatchEntry,
      (pySortDesc l).Pairwise (fun a b => b.score ≤ a.score)) ∧
    (∀ l : List MatchEntry, List.Perm (pySortDesc l) l) ∧
    (∀ (l : List MatchEntry) (s : ℚ),
      (pySortDesc l).filter (fun x => decide (x.score = s)) =
        l.filter (fun x => decide (x.score = s))) ∧
    (∀ (l : List MatchEntry) (k : ℕ),
      topMatches l k = (pySortDesc l).take k) :=
  ⟨pySortDesc_pairwise, pySortDesc_perm, pySortDesc_filter,
   fun _ _ => rfl⟩

/-- Claim C9: each vocabulary keyword occurring in the job text gets
weight `+0.1` when it also occurs in the resume text and `-0.05`
otherwise, and keywords absent from the job text get no entry; in
particular job text `"python docker"` with resume text `"python"` yields
`("python", +0.1)` and `("docker", -0.05)`. -/
theorem claim9_keyword_weights :
    (∀ kw ∈ importantKeywords, ∀ jobText resumeText : String,
      (pyIn kw (pyLower jobText) = true →
        pyIn kw (pyLower resumeText) = true →
        (kw, (1 : ℚ)/10) ∈ feature_importance jobText resumeText) ∧
      (pyIn kw (pyLower jobText) = true →
        pyIn kw (pyLower resumeText) = false →
        (kw, -((1 : ℚ)/20)) ∈ feature_importance jobText resumeText) ∧
      (pyIn kw (pyLower jobText) = false →
        ∀ w : ℚ, (kw, w) ∉ feature_importance jobText resumeText)) ∧
    ("python", (1 : ℚ)/10) ∈ feature_importance "python docker" "python" ∧
    ("docker", -((1 : ℚ)/20)) ∈ feature_importance "python docker" "python" := by
  refine ⟨?_, ?_, ?_⟩
  · intro kw hkw jobText resumeText
    refine ⟨?_, ?_, ?_⟩
    · intro h1 h2
      exact List.mem_filterMap.mpr ⟨kw, hkw, by simp [h1, h2]⟩
    · intro h1 h2
      exact List.mem_filterMap.mpr ⟨kw, hkw, by simp [h1, h2]⟩
    · intro h1 w hmem
      obtain ⟨kw', hkw', heq⟩ := List.mem_filterMap.mp hmem
      split_ifs at heq with hA hB
      · have hk : kw' = kw := congrArg Prod.fst (Option.some.inj heq)
        subst hk
        rw [h1] at hA
        simp at hA
      · have hk : kw' = kw := congrArg Prod.fst (Option.some.inj heq)
        subst hk
        rw [h1] at hB
        exact Bool.noConfusion hB
  · refine List.mem_filterMap.mpr ⟨"python", by decide, ?_⟩
    have h1 : pyIn "python" (pyLower "python docker") = true := by decide
    have h2 : pyIn "python" (pyLower "python") = true := by decide
    simp [h1, h2]
  · refine List.mem_filterMap.mpr ⟨"docker", by decide, ?_⟩
    have h1 : pyIn "docker" (pyLower "python docker") = true := by decide
    have h2 : pyIn "docker" (pyLower "python") = false := by decide
    simp [h1, h2]

/-- Claim C9 witness: the general weighting clause applied to the
concrete end-to-end texts. -/
theorem claim9_witness :
    ("sql", -((1 : ℚ)/20)) ∈ feature_importance "needs sql and python" "python dev" :=
  (claim9_keyword_weights.1 "sql" (by decide) "needs sql and python"
      "python dev").2.1 (by decide) (by decide)
